import Mathlib

/-!
Verification development for the black-hole animation core of the Warp-Drive
repository (src/warpdrive_esp8266_tft/blackhole.h).

The C++ source works with IEEE `float`; following the usual idealisation for
shallow embeddings we model float arithmetic with exact arithmetic: `Rat`
where the source expression is rational, `Real` where the source calls
`sqrt`, `sin`, `cos`, `fmod` or `pow` with non-integer exponent.  Machine
integers (`int`) are modelled by `Int`; screen coordinates never approach
the 32-bit range in any statement below, so no wraparound modelling is
needed.  Calls to the display surface (`tft.drawPixel` and friends) are
modelled as values: each drawing pass is a pure function returning the list
of pixel-write calls it issues.
-/

namespace WarpDrive

/-! ## Radii derived each tick (blackhole.h lines 96-98)

    blackHoleRadius = 14 * scale;
    diskInnerRadius = blackHoleRadius * 1.2;
    diskOuterRadius = blackHoleRadius * 2.0;
-/

/-- Event-horizon radius recomputed each tick from the shared scale (line 96). -/
def blackHoleRadius (scale : ℚ) : ℚ := 14 * scale

/-- Inner radius of the accretion disk (line 97). -/
def diskInnerRadius (scale : ℚ) : ℚ := blackHoleRadius scale * 1.2

/-- Outer radius of the accretion disk (line 98). -/
def diskOuterRadius (scale : ℚ) : ℚ := blackHoleRadius scale * 2.0

/-! ## Accretion-particle initializer, rational part
    (blackhole.h lines 792-802, `initializeAccretionParticle`) -/

/-- Guarded inner radius `max(1.0f, blackHoleRadius * 1.2f)` used both by the
initializer (line 793) and by the per-particle update (line 240). -/
def currentDiskInnerRadius (R : ℚ) : ℚ := max 1 (R * 1.2)

/-- Initializer's own outer radius
`max(currentDiskInnerRadius + 1.0f, blackHoleRadius * 2.5f)` (line 794).
Note the 2.5 factor: it is larger than the tick-level `diskOuterRadius`
factor 2.0 of line 98. -/
def currentDiskOuterRadiusInit (R : ℚ) : ℚ :=
  max (currentDiskInnerRadius R + 1) (R * 2.5)

/-- Distance stored by `initializeAccretionParticle` (lines 795, 800-802):
`randFactor = random(0,1000)/1000`, `distanceFactor = pow(randFactor, 2.0f)`,
`distance = currentDiskInnerRadius + distanceFactor * diskWidth`.
The random draw is passed in as the rational `f = randFactor`. -/
def initDistance (R f : ℚ) : ℚ :=
  currentDiskInnerRadius R +
    f ^ 2 * (currentDiskOuterRadiusInit R - currentDiskInnerRadius R)

/-! ## Per-particle distance after one Advance step
    (blackhole.h lines 215-259, update loop of `drawBlackHole`) -/

/-- Distance clamp applied to an active particle (lines 258-259):
`distance = max(distance, currentDiskInnerRadius * 0.1f)` then
`distance = min(distance, diskOuterRadius * 1.1f)` with the tick-level
`diskOuterRadius = blackHoleRadius * 2.0` of line 98. -/
def clampDistance (R d : ℚ) : ℚ :=
  min (max d (currentDiskInnerRadius R * 0.1)) (R * 2.0 * 1.1)

/-- Distance held by one accretion particle immediately after the update loop
body has run for it (lines 221-259).  The loop branches on `active` and, for
inactive particles, on `hasTrail` and on whether the trail lifetime has
elapsed (`millis() - trailStartTime > trailLifetime`, passed in as the
boolean `trailExpired`): an active particle is clamped (lines 258-259; the
inward-spiral block lines 246-254 is commented out, so no other distance
mutation happens); an inactive particle with a live trail keeps its distance;
any other inactive particle is reinitialized with a fresh random draw `f`
(lines 227, 234 calling `initializeAccretionParticle`). -/
def advanceDistance (R : ℚ) (active hasTrail trailExpired : Bool) (f d : ℚ) : ℚ :=
  if active then clampDistance R d
  else if hasTrail && !trailExpired then d
  else initDistance R f

/-! ## Claim C6 -/

/-- C6: with objectScale = 1.0 a tick computes blackHoleRadius = 14,
diskInnerRadius = 16.8 and diskOuterRadius = 28.0, and initializing an
accretion particle with the minimum random draw (randFactor = 0, hence
distanceFactor = 0) yields a distance exactly equal to the initializer's
currentDiskInnerRadius. -/
theorem C6_scenario :
    blackHoleRadius 1 = 14 ∧ diskInnerRadius 1 = 16.8 ∧ diskOuterRadius 1 = 28 ∧
      initDistance (blackHoleRadius 1) 0 = currentDiskInnerRadius (blackHoleRadius 1) := by
  refine ⟨by norm_num [blackHoleRadius], by norm_num [diskInnerRadius, blackHoleRadius],
    by norm_num [diskOuterRadius, blackHoleRadius], ?_⟩
  norm_num [initDistance]

/-! ## Claim C2 -/

/-- C2 counterexample: the claimed radial bound
`0.1 * diskInnerRadius <= distance <= 1.1 * diskOuterRadius` fails for a
particle reinitialized during the Advance step.  At scale 1 (so
blackHoleRadius = 14) a particle that is inactive with no live trail is
reinitialized; with random draw randFactor = 999/1000 (the largest value
`random(0,1000)/1000` can produce) the stored distance is
16.8 + 0.998001 * 18.2 = 34.9636182, which exceeds
1.1 * diskOuterRadius = 30.8.  The reinitialized particle is skipped by the
clamp of lines 258-259 (`continue` at line 236), so this is its distance
when the Advance step ends. -/
theorem C2_counterexample :
    ¬ (0.1 * diskInnerRadius 1 ≤ advanceDistance (blackHoleRadius 1) false false false (999/1000) 20 ∧
       advanceDistance (blackHoleRadius 1) false false false (999/1000) 20 ≤ 1.1 * diskOuterRadius 1) := by
  have h : advanceDistance (blackHoleRadius 1) false false false (999/1000) 20 = 349636182 / 10000000 := by
    norm_num [advanceDistance, initDistance, currentDiskInnerRadius,
      currentDiskOuterRadiusInit, blackHoleRadius]
  rw [h]
  norm_num [diskInnerRadius, diskOuterRadius, blackHoleRadius]

/-- C2 (amended): after any Advance step, a particle that was updated while
active has its distance clamped into
`[0.1 * diskInnerRadius, 1.1 * diskOuterRadius]` exactly as the claim says,
and a particle that was reinitialized during the step instead lands in
`[0.1 * diskInnerRadius, max (currentDiskInnerRadius + 1) (1.25 * diskOuterRadius)]`
(the initializer uses the 2.5x outer radius of line 794, i.e. 1.25 times the
tick-level diskOuterRadius).  A particle frozen in its trail-fade window
keeps its previous distance unchanged and is excluded.  Hypotheses: the
scale is nonnegative and the random draw is `k/1000` with `0 <= k < 1000`,
as produced by `random(0, 1000)`. -/
theorem C2_amended (scale f d : ℚ) (active hasTrail trailExpired : Bool)
    (hR : 0 ≤ scale) (hf0 : 0 ≤ f) (hf1 : f < 1)
    (hcase : active = true ∨ hasTrail = false ∨ trailExpired = true) :
    0.1 * diskInnerRadius scale ≤
        advanceDistance (blackHoleRadius scale) active hasTrail trailExpired f d ∧
      (active = true →
        advanceDistance (blackHoleRadius scale) active hasTrail trailExpired f d ≤
          1.1 * diskOuterRadius scale) ∧
      advanceDistance (blackHoleRadius scale) active hasTrail trailExpired f d ≤
        max (currentDiskInnerRadius (blackHoleRadius scale) + 1)
          (1.25 * diskOuterRadius scale) := by
  set R : ℚ := blackHoleRadius scale with hRdef
  have hR14 : R = 14 * scale := hRdef
  have hRpos : 0 ≤ R := by rw [hR14]; positivity
  have hinner : (0.1 : ℚ) * diskInnerRadius scale = 0.1 * (R * 1.2) := by
    rw [diskInnerRadius, hRdef]
  have houter : (1.25 : ℚ) * diskOuterRadius scale = R * 2.5 := by
    rw [diskOuterRadius, hRdef]; ring
  have houter11 : (1.1 : ℚ) * diskOuterRadius scale = R * 2.0 * 1.1 := by
    rw [diskOuterRadius, hRdef]; ring
  have hcin_ge : R * 1.2 ≤ currentDiskInnerRadius R := le_max_right _ _
  have hcin_ge1 : (1 : ℚ) ≤ currentDiskInnerRadius R := le_max_left _ _
  have hcin_nonneg : (0 : ℚ) ≤ currentDiskInnerRadius R := le_trans zero_le_one hcin_ge1
  have hlow_le_cin : (0.1 : ℚ) * (R * 1.2) ≤ currentDiskInnerRadius R := by
    calc (0.1 : ℚ) * (R * 1.2) ≤ R * 1.2 := by nlinarith
    _ ≤ currentDiskInnerRadius R := hcin_ge
  rw [hinner]
  cases active with
  | true =>
    simp only [advanceDistance, if_true]
    refine ⟨?_, ?_, ?_⟩
    · -- the clamp result is at least min of the two clamp bounds
      have h1 : currentDiskInnerRadius R * 0.1 ≤ max d (currentDiskInnerRadius R * 0.1) :=
        le_max_right _ _
      rcases le_or_lt (max d (currentDiskInnerRadius R * 0.1)) (R * 2.0 * 1.1) with hc | hc
      · rw [clampDistance, min_eq_left hc]
        calc (0.1 : ℚ) * (R * 1.2) ≤ currentDiskInnerRadius R * 0.1 := by
              rw [currentDiskInnerRadius]
              rcases le_or_lt 1 (R * 1.2) with h | h
              · rw [max_eq_right h]; nlinarith
              · rw [max_eq_left (le_of_lt h)]; nlinarith
          _ ≤ max d (currentDiskInnerRadius R * 0.1) := h1
      · rw [clampDistance, min_eq_right (le_of_lt hc)]
        nlinarith
    · -- an active particle is clamped into the claimed 1.1 * outer bound
      intro _
      rw [houter11]
      exact min_le_right _ _
    · have h2 : clampDistance R d ≤ R * 2.0 * 1.1 := min_le_right _ _
      refine le_trans h2 (le_trans ?_ (le_max_right _ _))
      rw [houter]; nlinarith
  | false =>
    cases hasTrail with
    | true =>
      have hte : trailExpired = true := by
        rcases hcase with h | h | h
        · exact absurd h (by simp)
        · exact absurd h (by simp)
        · exact h
      subst hte
      simp only [advanceDistance, Bool.false_eq_true, if_false, Bool.not_true,
        Bool.and_false, Bool.false_eq_true]
      refine ⟨?_, fun hcontra => absurd hcontra (by simp), ?_⟩
      · refine le_trans hlow_le_cin ?_
        rw [initDistance]
        have hw : (0 : ℚ) ≤ currentDiskOuterRadiusInit R - currentDiskInnerRadius R := by
          have : currentDiskInnerRadius R + 1 ≤ currentDiskOuterRadiusInit R := le_max_left _ _
          linarith
        nlinarith [sq_nonneg f]
      · rw [initDistance]
        have hw : currentDiskInnerRadius R + 1 ≤ currentDiskOuterRadiusInit R := le_max_left _ _
        have hf2 : f ^ 2 ≤ 1 := by nlinarith
        have hstep : f ^ 2 * (currentDiskOuterRadiusInit R - currentDiskInnerRadius R) ≤
            currentDiskOuterRadiusInit R - currentDiskInnerRadius R := by
          nlinarith
        -- the reinitialized distance is at most currentDiskOuterRadiusInit,
        -- which is at most max (inner + 1) (2.5 R) = the amended bound
        have hmax : currentDiskOuterRadiusInit R ≤
            max (currentDiskInnerRadius R + 1) (1.25 * diskOuterRadius scale) := by
          rw [currentDiskOuterRadiusInit, houter]
        calc currentDiskInnerRadius R +
              f ^ 2 * (currentDiskOuterRadiusInit R - currentDiskInnerRadius R) ≤
            currentDiskOuterRadiusInit R := by linarith
          _ ≤ _ := hmax
    | false =>
      simp only [advanceDistance, Bool.false_eq_true, if_false, Bool.false_and]
      refine ⟨?_, fun hcontra => absurd hcontra (by simp), ?_⟩
      · refine le_trans hlow_le_cin ?_
        rw [initDistance]
        have hw : (0 : ℚ) ≤ currentDiskOuterRadiusInit R - currentDiskInnerRadius R := by
          have : currentDiskInnerRadius R + 1 ≤ currentDiskOuterRadiusInit R := le_max_left _ _
          linarith
        nlinarith [sq_nonneg f]
      · rw [initDistance]
        have hw : currentDiskInnerRadius R + 1 ≤ currentDiskOuterRadiusInit R := le_max_left _ _
        have hf2 : f ^ 2 ≤ 1 := by nlinarith
        have hstep : f ^ 2 * (currentDiskOuterRadiusInit R - currentDiskInnerRadius R) ≤
            currentDiskOuterRadiusInit R - currentDiskInnerRadius R := by
          nlinarith
        have hmax : currentDiskOuterRadiusInit R ≤
            max (currentDiskInnerRadius R + 1) (1.25 * diskOuterRadius scale) := by
          rw [currentDiskOuterRadiusInit, houter]
        calc currentDiskInnerRadius R +
              f ^ 2 * (currentDiskOuterRadiusInit R - currentDiskInnerRadius R) ≤
            currentDiskOuterRadiusInit R := by linarith
          _ ≤ _ := hmax

/-- Witness for C2 (amended): the reinitialization case at scale 1 with the
maximal random draw 999/1000, distance 20 before the step. -/
theorem C2_amended_witness :
    ((0 : ℚ) ≤ 1 ∧ (0 : ℚ) ≤ 999/1000 ∧ (999/1000 : ℚ) < 1 ∧
        ((false = true ∨ false = false ∨ false = true))) ∧
      (0.1 * diskInnerRadius 1 ≤ advanceDistance (blackHoleRadius 1) false false false (999/1000) 20 ∧
        ((false = true) →
          advanceDistance (blackHoleRadius 1) false false false (999/1000) 20 ≤
            1.1 * diskOuterRadius 1) ∧
        advanceDistance (blackHoleRadius 1) false false false (999/1000) 20 ≤
          max (currentDiskInnerRadius (blackHoleRadius 1) + 1) (1.25 * diskOuterRadius 1)) ∧
      ((true = true) →
        advanceDistance (blackHoleRadius 1) true false false (999/1000) 34 ≤
          1.1 * diskOuterRadius 1) :=
  ⟨⟨by norm_num, by norm_num, by norm_num, Or.inr (Or.inl rfl)⟩,
    C2_amended 1 (999/1000) 20 false false false (by norm_num) (by norm_num) (by norm_num)
      (Or.inr (Or.inl rfl)),
    (C2_amended 1 (999/1000) 34 true false false (by norm_num) (by norm_num) (by norm_num)
      (Or.inl rfl)).2.1⟩

/-! ## Claim C1: relativistic factor stored at (re)initialization
    (blackhole.h lines 804-806)

    float orbital_velocity = sqrt(blackHoleRadius / accretionDisk[index].distance);
    accretionDisk[index].relativistic_factor = min(orbital_velocity, 0.9f);

    Note the numerator is the event-horizon radius `blackHoleRadius`, not the
    disk inner radius. -/

/-- Relativistic factor stored by `initializeAccretionParticle` (lines
804-806): the capped orbital velocity `min(sqrt(blackHoleRadius / distance), 0.9)`
where `distance` is the distance just stored at line 802. -/
noncomputable def init_relativistic_factor (R f : ℚ) : ℝ :=
  min (Real.sqrt ((R : ℝ) / ((initDistance R f : ℚ) : ℝ))) 0.9

/-- Modelled from the spec text of the claim (for comparison only): a factor
equal to the square root of the disk inner radius (diskInnerRadius =
blackHoleRadius * 1.2) divided by the distance, capped at 0.9. -/
noncomputable def claim_relativistic_factor (R f : ℚ) : ℝ :=
  min (Real.sqrt (((R * 1.2 : ℚ) : ℝ) / ((initDistance R f : ℚ) : ℝ))) 0.9

/-- C1 counterexample: at scale 1 (blackHoleRadius = 14) with random draw
randFactor = 1/2, the initializer stores distance = 16.8 + 0.25 * 18.2 =
21.35, and the stored relativistic factor is sqrt(14 / 21.35) = sqrt(40/61),
while the claimed value is sqrt(diskInnerRadius / distance) =
sqrt(16.8 / 21.35) = sqrt(48/61); both are below the 0.9 cap and they
differ. -/
theorem C1_counterexample :
    init_relativistic_factor (blackHoleRadius 1) (1/2) ≠
      claim_relativistic_factor (blackHoleRadius 1) (1/2) := by
  have hd : initDistance (blackHoleRadius 1) (1/2) = 427/20 := by
    norm_num [initDistance, currentDiskInnerRadius, currentDiskOuterRadiusInit,
      blackHoleRadius]
  have hR : blackHoleRadius 1 = 14 := by norm_num [blackHoleRadius]
  have hc : ((blackHoleRadius 1 : ℚ) : ℝ) /
      ((initDistance (blackHoleRadius 1) (1/2) : ℚ) : ℝ) = 40/61 := by
    rw [hd, hR]; push_cast; norm_num
  have hs : ((blackHoleRadius 1 * 1.2 : ℚ) : ℝ) /
      ((initDistance (blackHoleRadius 1) (1/2) : ℚ) : ℝ) = 48/61 := by
    rw [hd, hR]; push_cast; norm_num
  unfold init_relativistic_factor claim_relativistic_factor
  rw [hc, hs]
  have h1 : Real.sqrt (40/61) < Real.sqrt (48/61) :=
    Real.sqrt_lt_sqrt (by norm_num) (by norm_num)
  have h2 : Real.sqrt (48/61) < 0.9 := by
    rw [Real.sqrt_lt' (by norm_num)]; norm_num
  rw [min_eq_left (le_of_lt (lt_trans h1 h2)), min_eq_left (le_of_lt h2)]
  exact ne_of_lt h1

/-- C1 (amended): for every scale and every random draw, the relativistic
factor stored by particle (re)initialization equals the square root of the
EVENT-HORIZON radius (blackHoleRadius, not the disk inner radius) divided by
the stored distance, capped at 0.9; in particular it never exceeds 0.9. -/
theorem C1_amended (scale f : ℚ) :
    init_relativistic_factor (blackHoleRadius scale) f =
        min (Real.sqrt (((blackHoleRadius scale : ℚ) : ℝ) /
          ((initDistance (blackHoleRadius scale) f : ℚ) : ℝ))) 0.9 ∧
      init_relativistic_factor (blackHoleRadius scale) f ≤ 0.9 :=
  ⟨rfl, min_le_right _ _⟩

/-! ## Claim C7: angle wrap in the particle update
    (blackhole.h lines 240-244)

    float currentDiskInnerRadius = max(1.0f, blackHoleRadius * 1.2f);
    float spinFactor = sqrt(currentDiskInnerRadius /
                            max(accretionDisk[i].distance, currentDiskInnerRadius * 0.5f));
    accretionDisk[i].angle += accretionDisk[i].speed * spinFactor * deltaTime * 60;
    accretionDisk[i].angle = fmod(accretionDisk[i].angle, 2.0f * PI);
    if (accretionDisk[i].angle < 0) accretionDisk[i].angle += 2.0f * PI;
-/

/-- Truncation toward zero, as used by the C `fmod` semantics. -/
noncomputable def truncToZero (z : ℝ) : ℤ := if 0 ≤ z then ⌊z⌋ else ⌈z⌉

/-- Real model of C `fmod`: remainder with the sign of the dividend,
`fmod(x, y) = x - y * trunc(x / y)`. -/
noncomputable def fmodR (x y : ℝ) : ℝ := x - y * truncToZero (x / y)

/-- Angle normalisation of lines 243-244: `fmod` into (-2 pi, 2 pi), then
add 2 pi if negative. -/
noncomputable def wrapAngle (a : ℝ) : ℝ :=
  if fmodR a (2 * Real.pi) < 0 then fmodR a (2 * Real.pi) + 2 * Real.pi
  else fmodR a (2 * Real.pi)

/-- Spin factor of line 241 (div-by-zero guarded Keplerian speedup). -/
noncomputable def updateSpinFactor (R d : ℝ) : ℝ :=
  Real.sqrt (max 1 (R * 1.2) / max d (max 1 (R * 1.2) * 0.5))

/-- Angle of a particle immediately after the angle update of lines 242-244. -/
noncomputable def advanceAngle (R angle speed d dt : ℝ) : ℝ :=
  wrapAngle (angle + speed * updateSpinFactor R d * dt * 60)

/-- Helper: the normalisation of lines 243-244 always lands in [0, 2 pi). -/
theorem wrapAngle_mem (a : ℝ) : 0 ≤ wrapAngle a ∧ wrapAngle a < 2 * Real.pi := by
  have hy : (0 : ℝ) < 2 * Real.pi := by positivity
  have hay : 2 * Real.pi * (a / (2 * Real.pi)) = a := by
    rw [mul_comm]
    exact div_mul_cancel₀ a (ne_of_gt hy)
  unfold wrapAngle fmodR truncToZero
  by_cases h0 : 0 ≤ a / (2 * Real.pi)
  · rw [if_pos h0]
    have h1 : ((⌊a / (2 * Real.pi)⌋ : ℤ) : ℝ) ≤ a / (2 * Real.pi) := Int.floor_le _
    have h2 : a / (2 * Real.pi) < (⌊a / (2 * Real.pi)⌋ : ℤ) + 1 := Int.lt_floor_add_one _
    have hle : 2 * Real.pi * ((⌊a / (2 * Real.pi)⌋ : ℤ) : ℝ) ≤
        2 * Real.pi * (a / (2 * Real.pi)) := by
      exact mul_le_mul_of_nonneg_left h1 (le_of_lt hy)
    have hlt : 2 * Real.pi * (a / (2 * Real.pi)) <
        2 * Real.pi * (((⌊a / (2 * Real.pi)⌋ : ℤ) : ℝ) + 1) := by
      exact (mul_lt_mul_left hy).mpr h2
    rw [hay] at hle hlt
    have hm0 : 0 ≤ a - 2 * Real.pi * ((⌊a / (2 * Real.pi)⌋ : ℤ) : ℝ) := by linarith
    rw [if_neg (not_lt.mpr hm0)]
    constructor
    · exact hm0
    · nlinarith
  · rw [if_neg h0]
    have h1 : a / (2 * Real.pi) ≤ ((⌈a / (2 * Real.pi)⌉ : ℤ) : ℝ) := Int.le_ceil _
    have h2 : ((⌈a / (2 * Real.pi)⌉ : ℤ) : ℝ) < a / (2 * Real.pi) + 1 :=
      Int.ceil_lt_add_one _
    have hle : 2 * Real.pi * (a / (2 * Real.pi)) ≤
        2 * Real.pi * ((⌈a / (2 * Real.pi)⌉ : ℤ) : ℝ) :=
      mul_le_mul_of_nonneg_left h1 (le_of_lt hy)
    have hlt : 2 * Real.pi * ((⌈a / (2 * Real.pi)⌉ : ℤ) : ℝ) <
        2 * Real.pi * (a / (2 * Real.pi) + 1) := (mul_lt_mul_left hy).mpr h2
    rw [hay] at hle
    have hlt' : 2 * Real.pi * ((⌈a / (2 * Real.pi)⌉ : ℤ) : ℝ) < a + 2 * Real.pi := by
      nlinarith
    by_cases hm : a - 2 * Real.pi * ((⌈a / (2 * Real.pi)⌉ : ℤ) : ℝ) < 0
    · rw [if_pos hm]
      constructor
      · linarith
      · linarith
    · rw [if_neg hm]
      constructor
      · linarith
      · linarith

/-- C7: for every accretion particle, immediately after the angle update in
any Advance step, the angle lies in [0, 2 pi).  The update adds
`speed * spinFactor * deltaTime * 60` to the angle and then normalises with
`fmod` plus a negative fix-up; the result is in range for every input
angle, speed, distance, radius and time step. -/
theorem C7_angle_wrap (R angle speed d dt : ℝ) :
    0 ≤ advanceAngle R angle speed d dt ∧
      advanceAngle R angle speed d dt < 2 * Real.pi :=
  wrapAngle_mem _

/-! ## Pixel-write calls issued to the display surface -/

/-- Single pixel-write call handed to the display primitive
`tft.drawPixel(x, y, color)`. -/
structure PixelCall where
  x : ℤ
  y : ℤ
  color : ℕ
deriving DecidableEq, Repr

/-- Packed RGB565 white used by the consumption flash (line 391). -/
def TFT_WHITE : ℕ := 0xFFFF

/-- Screen-bounds predicate `x >= 0 && x < W && y >= 0 && y < H` used by
every in-bounds check of the drawing code. -/
def flashGuardP (W H : ℤ) (p : ℤ × ℤ) : Prop :=
  0 ≤ p.1 ∧ p.1 < W ∧ 0 ≤ p.2 ∧ p.2 < H

instance (W H : ℤ) (p : ℤ × ℤ) : Decidable (flashGuardP W H p) := by
  unfold flashGuardP; infer_instance

/-! ## Claim C4: the consumption flash (blackhole.h lines 382-398)

    for (int r = 0; r <= 2; r++) {
        for (int j = 0; j < 8; j++) {
             float angle = j * PI / 4.0f;
             int flashX = round(centerX + cos(angle) * (blackHoleRadius + r));
             int flashY = round(centerY + sin(angle) * (blackHoleRadius + r));
             if (flashX >= 0 && flashX < SCREEN_WIDTH && flashY >= 0 && flashY < SCREEN_HEIGHT) {
                 tft.drawPixel(flashX, flashY, TFT_WHITE);
             }
        }
    }
-/

/-- Coordinates of the flash point for ring offset `r` and angle index `j`
(lines 387-389). -/
noncomputable def flashPoint (cx cy : ℤ) (R : ℝ) (r j : ℕ) : ℤ × ℤ :=
  (round ((cx : ℝ) + Real.cos ((j : ℝ) * Real.pi / 4) * (R + r)),
   round ((cy : ℝ) + Real.sin ((j : ℝ) * Real.pi / 4) * (R + r)))

/-- List of pixel-write calls issued by the one-shot consumption flash
(lines 385-394): ring offsets r = 0..2 (outer loop), angle indices
j = 0..7 (inner loop), each point bounds-checked and drawn in TFT_WHITE. -/
noncomputable def flashCalls (W H cx cy : ℤ) (R : ℝ) : List PixelCall :=
  (List.range 3).flatMap fun r =>
    (List.range 8).flatMap fun j =>
      if flashGuardP W H (flashPoint cx cy R r j) then
        [⟨(flashPoint cx cy R r j).1, (flashPoint cx cy R r j).2, TFT_WHITE⟩]
      else []

/-- Modelled from the spec text of the claim (for comparison only): a flash
of exactly 8 points at angles j * pi / 4 on the horizon circle itself
(radius blackHoleRadius, i.e. ring offset 0), each bounds-checked and drawn
in the bright fixed color. -/
noncomputable def claimFlashCalls (W H cx cy : ℤ) (R : ℝ) : List PixelCall :=
  (List.range 8).flatMap fun j =>
    if flashGuardP W H (flashPoint cx cy R 0 j) then
      [⟨(flashPoint cx cy R 0 j).1, (flashPoint cx cy R 0 j).2, TFT_WHITE⟩]
    else []

/-- Helper: length of a guarded-singleton flatMap when every guard holds. -/
theorem length_flatMap_ite {α β : Type} (l : List α) (c : α → Prop) [DecidablePred c]
    (g : α → List β) (h : ∀ a ∈ l, c a) :
    (l.flatMap fun a => if c a then g a else []).length =
      (l.flatMap fun a => g a).length := by
  induction l with
  | nil => rfl
  | cons a t ih =>
    simp only [List.flatMap_cons, List.length_append,
      if_pos (h a (List.mem_cons_self a t))]
    rw [ih (fun b hb => h b (List.mem_cons_of_mem a hb))]

/-- Helper: length of a guarded-singleton flatMap is at most the index count. -/
theorem length_flatMap_ite_le {α β : Type} (l : List α) (c : α → Prop)
    [DecidablePred c] (g : α → β) :
    (l.flatMap fun a => if c a then [g a] else []).length ≤ l.length := by
  induction l with
  | nil => exact le_refl _
  | cons a t ih =>
    rw [List.flatMap_cons, List.length_append, List.length_cons]
    by_cases hc : c a
    · rw [if_pos hc]; simp only [List.length_singleton]; omega
    · rw [if_neg hc]; simp only [List.length_nil]; omega

/-- Helper: membership in a guarded singleton. -/
theorem mem_ite_singleton {α : Type} {p : α} {c : Prop} [Decidable c] {q : α} :
    (p ∈ if c then [q] else []) ↔ c ∧ p = q := by
  by_cases h : c
  · rw [if_pos h]; simp [h]
  · rw [if_neg h]; simp [h]

/-- Helper: integer lower bound for rounding. -/
theorem round_ge {x : ℝ} {lo : ℤ} (h : (lo : ℝ) ≤ x + 1/2) : lo ≤ round x := by
  rw [round_eq]; exact Int.le_floor.mpr h

/-- Helper: integer strict upper bound for rounding. -/
theorem round_lt {x : ℝ} {hi : ℤ} (h : x + 1/2 < (hi : ℝ)) : round x < hi := by
  rw [round_eq]; exact Int.floor_lt.mpr h

/-- Helper: with center (120,120), radius 14 and a 240 x 240 screen, every
flash point of every ring offset r <= 2 passes the bounds check, because the
coordinates stay within [104, 136]. -/
theorem flashGuard_all (r j : ℕ) (hr : r < 3) :
    flashGuardP 240 240 (flashPoint 120 120 14 r j) := by
  have hr2 : (r : ℝ) ≤ 2 := by exact_mod_cast Nat.lt_succ_iff.mp hr
  have hr0 : (0 : ℝ) ≤ (r : ℝ) := Nat.cast_nonneg r
  have hc1 : Real.cos ((j : ℝ) * Real.pi / 4) ≤ 1 := Real.cos_le_one _
  have hc2 : -1 ≤ Real.cos ((j : ℝ) * Real.pi / 4) := Real.neg_one_le_cos _
  have hs1 : Real.sin ((j : ℝ) * Real.pi / 4) ≤ 1 := Real.sin_le_one _
  have hs2 : -1 ≤ Real.sin ((j : ℝ) * Real.pi / 4) := Real.neg_one_le_sin _
  have hx1 : -(16 : ℝ) ≤ Real.cos ((j : ℝ) * Real.pi / 4) * (14 + r) := by nlinarith
  have hx2 : Real.cos ((j : ℝ) * Real.pi / 4) * (14 + r) ≤ 16 := by nlinarith
  have hy1 : -(16 : ℝ) ≤ Real.sin ((j : ℝ) * Real.pi / 4) * (14 + r) := by nlinarith
  have hy2 : Real.sin ((j : ℝ) * Real.pi / 4) * (14 + r) ≤ 16 := by nlinarith
  unfold flashGuardP flashPoint
  refine ⟨round_ge ?_, round_lt ?_, round_ge ?_, round_lt ?_⟩ <;>
    (push_cast; nlinarith)

/-- C4 counterexample: on a concrete consumed star (center (120,120), event
horizon radius 14, 240 x 240 screen), the code's flash emits 24 pixel-write
calls (three concentric rings r = 0, 1, 2 of 8 points each), whereas the
claim describes exactly the 8 ring-offset-0 points; the two call lists
differ. -/
theorem C4_counterexample :
    flashCalls 240 240 120 120 14 ≠ claimFlashCalls 240 240 120 120 14 := by
  intro h
  have h24 : (flashCalls 240 240 120 120 14).length = 24 := by
    unfold flashCalls
    rw [show List.range 3 = [0, 1, 2] from rfl]
    simp only [List.flatMap_cons, List.flatMap_nil, List.length_append,
      List.append_nil]
    rw [length_flatMap_ite (List.range 8) _ _ (fun j _ => flashGuard_all 0 j (by norm_num)),
      length_flatMap_ite (List.range 8) _ _ (fun j _ => flashGuard_all 1 j (by norm_num)),
      length_flatMap_ite (List.range 8) _ _ (fun j _ => flashGuard_all 2 j (by norm_num))]
    rfl
  have hle : (claimFlashCalls 240 240 120 120 14).length ≤ 8 := by
    unfold claimFlashCalls
    have := length_flatMap_ite_le (List.range 8)
      (fun j => flashGuardP 240 240 (flashPoint 120 120 14 0 j))
      (fun j => (⟨(flashPoint 120 120 14 0 j).1, (flashPoint 120 120 14 0 j).2,
        TFT_WHITE⟩ : PixelCall))
    simpa using this
  rw [h] at h24
  omega

/-- C4 (amended): the one-shot flash drawn when a falling star is consumed
within 1.5 times the event-horizon radius consists of up to 24 points: 8
angles j * pi / 4 (j = 0..7) at each of the three radii R, R + 1, R + 2
around the horizon circle, every point drawn in the single bright fixed
color TFT_WHITE, and each point's draw suppressed only by the screen-bounds
check. -/
theorem C4_amended (W H cx cy : ℤ) (R : ℝ) (p : PixelCall) :
    p ∈ flashCalls W H cx cy R ↔
      ∃ r < 3, ∃ j < 8,
        p = ⟨(flashPoint cx cy R r j).1, (flashPoint cx cy R r j).2, TFT_WHITE⟩ ∧
          flashGuardP W H (flashPoint cx cy R r j) := by
  unfold flashCalls
  simp only [List.mem_flatMap, List.mem_range, mem_ite_singleton]
  constructor
  · rintro ⟨r, hr, j, hj, hc, rfl⟩
    exact ⟨r, hr, j, hj, rfl, hc⟩
  · rintro ⟨r, hr, j, hj, rfl, hc⟩
    exact ⟨r, hr, j, hj, hc, rfl⟩

/-! ## Falling stars (blackhole.h lines 40-51, 310-450)

Real-valued comparisons below (speed clamp, termination test) are modelled
with classical decidability. -/

open scoped Classical

/-- State of one `FallingStar` slot (struct at lines 40-51).  The clock is
abstracted: `startTime` is not carried, and the trail-fade test
`millis() - startTime > trailLifetime` is passed into the update as a
boolean. -/
structure FallingStar where
  x : ℝ
  y : ℝ
  vx : ℝ
  vy : ℝ
  distance : ℝ
  brightness : ℤ
  spinFactor : ℝ
  active : Bool
  hasTrail : Bool
  trailLifetime : ℕ
  prevX : ℤ
  prevY : ℤ

/-- Zero-initialized global slot: C++ arrays with static storage duration
start zero-initialized (line 76). -/
noncomputable def fsZero : FallingStar :=
  ⟨0, 0, 0, 0, 0, 0, 0, false, false, 0, 0, 0⟩

/-- Spawn of a falling star (lines 417-447): position `(px, py)` on a random
screen edge, launch angle `ang` (the code's `atan2(dy, dx)` toward the
center plus a random offset, modelled as the resulting angle value), initial
speed `random(4,10)/10 = k/10`, spin factor `random(50,200)/100 = m/100`,
brightness `br = random(180,256)`.  All fields the code assigns are
overwritten; `trailLifetime` is left untouched by the code. -/
noncomputable def fsSpawn (s : FallingStar) (cx cy : ℤ) (px py ang : ℝ)
    (k m : ℕ) (br : ℤ) : FallingStar :=
  { s with
    active := true
    hasTrail := false
    brightness := br
    spinFactor := (m : ℝ) / 100
    x := px
    y := py
    distance := Real.sqrt (((cx : ℝ) - px) * ((cx : ℝ) - px) +
      ((cy : ℝ) - py) * ((cy : ℝ) - py))
    vx := Real.cos ang * ((k : ℝ) / 10)
    vy := Real.sin ang * ((k : ℝ) / 10)
    prevX := -1
    prevY := -1 }

/-- Speed limiter of lines 358-365: if the squared speed exceeds the fixed
ceiling 400, rescale the velocity by `sqrt(400 / speedSq)`. -/
noncomputable def clampSpeed (v : ℝ × ℝ) : ℝ × ℝ :=
  if 400 < v.1 * v.1 + v.2 * v.2 then
    (v.1 * Real.sqrt (400 / (v.1 * v.1 + v.2 * v.2)),
     v.2 * Real.sqrt (400 / (v.1 * v.1 + v.2 * v.2)))
  else v

/-- Velocity of an active falling star after the gravity, frame-dragging and
clamp steps of lines 329-367: inverse-square gravity capped at 50, a
tangential spin term capped at 8 applied within 8 horizon radii, Euler
integration by `deltaTime`, then the speed clamp.  When the distance guard
`dist > 0.1` fails, the velocity is left unchanged. -/
noncomputable def fsNewVelocity (cx cy : ℤ) (R dt : ℝ) (s : FallingStar) : ℝ × ℝ :=
  let dx := (cx : ℝ) - s.x
  let dy := (cy : ℝ) - s.y
  let distSq := dx * dx + dy * dy
  let dist := Real.sqrt distSq
  if 0.1 < dist then
    let gravityForce := min (R * R * 150 / max distSq (R * 0.5)) 50
    let spinStrength := min (s.spinFactor * 1.5 * (R * 4 / max dist (R * 4 * 0.1))) 8
    let accX := dx / dist * gravityForce +
      (if dist < R * 8 then -dy / dist * spinStrength else 0)
    let accY := dy / dist * gravityForce +
      (if dist < R * 8 then dx / dist * spinStrength else 0)
    clampSpeed (s.vx + accX * dt, s.vy + accY * dt)
  else (s.vx, s.vy)

/-- One update-loop body for a falling star slot (lines 310-412), returning
the new slot state and the pixel-write calls issued during the update (only
the consumption flash draws inside this loop).  For an inactive star the
code either lets a fading trail expire or keeps/clears the previous
position; for an active star it caches the distance to the center (line
333), advances velocity and position, and then tests termination: consumed
(`dist <= blackHoleRadius`) or outside the 10-pixel off-screen margin.  On
termination within 1.5 horizon radii it fires the flash and starts a 600 ms
trail fade; otherwise it clears `hasTrail`.  The pre-update `prevX/prevY`
are retained on termination (lines 404-405) and replaced by the new rounded
position otherwise (lines 410-411). -/
noncomputable def fsUpdate (W H cx cy : ℤ) (R dt : ℝ) (trailExpired : Bool)
    (s : FallingStar) : FallingStar × List PixelCall :=
  if s.active = false then
    (if s.hasTrail && trailExpired then { s with hasTrail := false, prevX := -1, prevY := -1 }
     else if s.hasTrail then s
     else { s with prevX := -1, prevY := -1 }, [])
  else
    let dx := (cx : ℝ) - s.x
    let dy := (cy : ℝ) - s.y
    let dist := Real.sqrt (dx * dx + dy * dy)
    let v := fsNewVelocity cx cy R dt s
    let x1 := s.x + v.1 * dt
    let y1 := s.y + v.2 * dt
    let rx := round x1
    let ry := round y1
    if dist ≤ R ∨ rx < -10 ∨ W + 10 ≤ rx ∨ ry < -10 ∨ H + 10 ≤ ry then
      if dist ≤ R * 1.5 then
        ({ s with
            x := x1
            y := y1
            vx := v.1
            vy := v.2
            distance := dist
            active := false
            hasTrail := true
            trailLifetime := 600 },
         flashCalls W H cx cy R)
      else
        ({ s with
            x := x1
            y := y1
            vx := v.1
            vy := v.2
            distance := dist
            active := false
            hasTrail := false }, [])
    else
      ({ s with
          x := x1
          y := y1
          vx := v.1
          vy := v.2
          distance := dist
          prevX := rx
          prevY := ry }, [])

/-! ## Claim C5 -/

/-- C5: for every falling star, on the Advance step in which it transitions
from active to inactive, hasTrail is set to true if and only if its cached
distance to the focal center at that moment is at most 1.5 times the
event-horizon radius; when hasTrail is set to false, no flash pixels are
drawn. -/
theorem C5_consumption_flash (W H cx cy : ℤ) (R dt : ℝ) (te : Bool)
    (s : FallingStar) (ha : s.active = true) :
    (fsUpdate W H cx cy R dt te s).1.active = false →
      (((fsUpdate W H cx cy R dt te s).1.hasTrail = true ↔
          (fsUpdate W H cx cy R dt te s).1.distance ≤ R * 1.5) ∧
        ((fsUpdate W H cx cy R dt te s).1.hasTrail = false →
          (fsUpdate W H cx cy R dt te s).2 = [])) := by
  unfold fsUpdate
  rw [ha]
  simp only [Bool.true_eq_false, if_false]
  split_ifs with h1 h2
  · -- terminated near the horizon: flash fired, trail started
    intro _
    constructor
    · simpa using h2
    · intro hcontra
      simp at hcontra
  · -- terminated far away: no trail, no flash pixels
    intro _
    constructor
    · simpa using h2
    · intro _
      rfl
  · -- not terminated: the star stays active, nothing to show
    intro hcontra
    simp [ha] at hcontra

/-- Witness for C5: a star sitting at (123, 124) with the focal center at
(120, 120) and horizon radius 14 is 5 pixels from the center, hence consumed
this step. -/
theorem C5_consumption_flash_witness :
    (⟨123, 124, 0, 0, 0, 200, 1, true, false, 0, -1, -1⟩ : FallingStar).active = true ∧
      ((fsUpdate 240 240 120 120 14 0.016 false
          ⟨123, 124, 0, 0, 0, 200, 1, true, false, 0, -1, -1⟩).1.active = false →
        (((fsUpdate 240 240 120 120 14 0.016 false
            ⟨123, 124, 0, 0, 0, 200, 1, true, false, 0, -1, -1⟩).1.hasTrail = true ↔
            (fsUpdate 240 240 120 120 14 0.016 false
              ⟨123, 124, 0, 0, 0, 200, 1, true, false, 0, -1, -1⟩).1.distance ≤ 14 * 1.5) ∧
          ((fsUpdate 240 240 120 120 14 0.016 false
              ⟨123, 124, 0, 0, 0, 200, 1, true, false, 0, -1, -1⟩).1.hasTrail = false →
            (fsUpdate 240 240 120 120 14 0.016 false
              ⟨123, 124, 0, 0, 0, 200, 1, true, false, 0, -1, -1⟩).2 = []))) :=
  ⟨rfl, C5_consumption_flash 240 240 120 120 14 0.016 false
    ⟨123, 124, 0, 0, 0, 200, 1, true, false, 0, -1, -1⟩ rfl⟩

/-! ## Claim C8 -/

/-- Reachable states of one falling-star slot: the zero-initialized global,
the first-run init block (lines 108-117, which only touches `active`,
`hasTrail`, `prevX`, `prevY`), spawning into a truly-inactive slot (lines
416-449, guarded by `!active && !hasTrail`), and the per-tick update with
arbitrary per-tick center, radius, time step and trail-expiry input. -/
inductive FSReachable : FallingStar → Prop
  | zeroInit : FSReachable fsZero
  | initBlock : FSReachable { fsZero with prevX := -1, prevY := -1 }
  | spawn : ∀ (s : FallingStar) (cx cy : ℤ) (px py ang : ℝ) (k m : ℕ) (br : ℤ),
      FSReachable s → s.active = false → s.hasTrail = false →
      4 ≤ k → k < 10 → FSReachable (fsSpawn s cx cy px py ang k m br)
  | update : ∀ (s : FallingStar) (W H cx cy : ℤ) (R dt : ℝ) (te : Bool),
      FSReachable s → FSReachable (fsUpdate W H cx cy R dt te s).1

/-- Helper: the speed limiter enforces the 400 ceiling whenever it fires,
and otherwise the unclamped speed was already inside it; either way the
squared speed it returns is at most 400. -/
theorem clampSpeed_sq_le (v : ℝ × ℝ) :
    (clampSpeed v).1 ^ 2 + (clampSpeed v).2 ^ 2 ≤ 400 := by
  unfold clampSpeed
  split_ifs with h
  · have hpos : (0 : ℝ) < v.1 * v.1 + v.2 * v.2 := lt_trans (by norm_num) h
    have hc : Real.sqrt (400 / (v.1 * v.1 + v.2 * v.2)) ^ 2 =
        400 / (v.1 * v.1 + v.2 * v.2) :=
      Real.sq_sqrt (div_nonneg (by norm_num) (le_of_lt hpos))
    dsimp only
    have hkey : (v.1 * Real.sqrt (400 / (v.1 * v.1 + v.2 * v.2))) ^ 2 +
        (v.2 * Real.sqrt (400 / (v.1 * v.1 + v.2 * v.2))) ^ 2 =
        (v.1 * v.1 + v.2 * v.2) * (400 / (v.1 * v.1 + v.2 * v.2)) := by
      rw [mul_pow, mul_pow, hc]; ring
    rw [hkey, mul_div_cancel₀ _ (ne_of_gt hpos)]
  · push_neg at h
    nlinarith [h]

/-- Helper: the post-update velocity of an active star is inside the speed
ceiling whenever the pre-update velocity was (the distance guard may skip
the whole acceleration-and-clamp block, keeping the old velocity). -/
theorem fsNewVelocity_sq_le (cx cy : ℤ) (R dt : ℝ) (s : FallingStar)
    (h : s.vx ^ 2 + s.vy ^ 2 ≤ 400) :
    (fsNewVelocity cx cy R dt s).1 ^ 2 + (fsNewVelocity cx cy R dt s).2 ^ 2 ≤ 400 := by
  unfold fsNewVelocity
  dsimp only
  split_ifs with h1 h2
  · exact clampSpeed_sq_le _
  · exact clampSpeed_sq_le _
  · simpa using h

/-- C8: for every falling star and every reachable state after any number of
ticks, the squared speed vx^2 + vy^2 never exceeds the fixed ceiling 400:
spawn assigns speed at most 0.9, and each active update clamps the speed
back to the ceiling before integrating position. -/
theorem C8_speed_bound (s : FallingStar) (h : FSReachable s) :
    s.vx ^ 2 + s.vy ^ 2 ≤ 400 := by
  induction h with
  | zeroInit => norm_num [fsZero]
  | initBlock => norm_num [fsZero]
  | spawn s cx cy px py ang k m br hs ha ht hk4 hk10 ih =>
    have hk : (k : ℝ) ≤ 9 := by exact_mod_cast Nat.lt_succ_iff.mp hk10
    have hk0 : (0 : ℝ) ≤ (k : ℝ) := Nat.cast_nonneg k
    have htrig := Real.sin_sq_add_cos_sq ang
    simp only [fsSpawn]
    have hsq : (Real.cos ang * ((k : ℝ) / 10)) ^ 2 +
        (Real.sin ang * ((k : ℝ) / 10)) ^ 2 = ((k : ℝ) / 10) ^ 2 := by
      calc (Real.cos ang * ((k : ℝ) / 10)) ^ 2 + (Real.sin ang * ((k : ℝ) / 10)) ^ 2 =
          (Real.sin ang ^ 2 + Real.cos ang ^ 2) * ((k : ℝ) / 10) ^ 2 := by ring
        _ = ((k : ℝ) / 10) ^ 2 := by rw [htrig, one_mul]
    rw [hsq]
    nlinarith
  | update s W H cx cy R dt te hs ih =>
    have hv := fsNewVelocity_sq_le cx cy R dt s ih
    unfold fsUpdate
    dsimp only
    split_ifs <;> dsimp only <;> first | exact ih | exact hv

/-- Witness for C8: the zero-initialized slot is reachable and satisfies the
speed ceiling. -/
theorem C8_speed_bound_witness :
    FSReachable fsZero ∧ fsZero.vx ^ 2 + fsZero.vy ^ 2 ≤ 400 :=
  ⟨FSReachable.zeroInit, C8_speed_bound fsZero FSReachable.zeroInit⟩

/-! ## Claim C9: teardown (`eraseBlackHole`, blackhole.h lines 890-909) -/

/-- Display-surface filled-circle call `tft.fillCircle(x, y, r, color)`. -/
structure FillCircleCall where
  x : ℤ
  y : ℤ
  r : ℤ
  color : ℕ
deriving DecidableEq, Repr

/-- Module-level state read or written by `eraseBlackHole`: the
initialization flag and previous-frame scalars (lines 69-72), the lens
tracker `previousLensPoints[60][2]` (line 79, split into the tag column [0]
and the column [1]), the falling-star trail lengths `trailLen` (line 83) and
the inner-particle trackers (lines 85-86).  The tick-level
`diskOuterRadius` global (line 68) is carried because the teardown erase
radius reads it. -/
structure ModuleState where
  blackHoleInitialized : Bool
  prevBlackHoleX : ℤ
  prevBlackHoleY : ℤ
  previousEventHorizonRadius : ℚ
  diskOuterRadius : ℚ
  lensTag : Fin 60 → ℤ
  lensY : Fin 60 → ℤ
  trailLen : Fin 6 → ℕ
  innerX : Fin 4 → ℤ
  innerY : Fin 4 → ℤ

/-- Teardown operation `eraseBlackHole()` (lines 890-909): when
initialized, it issues one background-colored fillCircle over the last
position (radius `max(prevRadius*2.5, diskOuterRadius*1.1) + 5`, or 60 when
no radius is known), then resets the flag, moves the previous position
off-screen, zeroes the previous radius, and writes sentinels into the lens
tag column, the trail lengths and the inner-particle x column (lines
905-907; the lens [1] column and the inner-particle y column are not
touched).  When not initialized it does nothing. -/
def eraseBlackHole (bg : ℕ) (s : ModuleState) : ModuleState × List FillCircleCall :=
  if s.blackHoleInitialized then
    ({ s with
        blackHoleInitialized := false
        prevBlackHoleX := -1000
        prevBlackHoleY := -1000
        previousEventHorizonRadius := 0
        lensTag := fun _ => -1
        trailLen := fun _ => 0
        innerX := fun _ => -1 },
     [⟨s.prevBlackHoleX, s.prevBlackHoleY,
       round (if 0 < s.previousEventHorizonRadius then
           max (s.previousEventHorizonRadius * 2.5) (s.diskOuterRadius * 1.1) + 5
         else (60 : ℚ)), bg⟩])
  else (s, [])

/-- Module state at program start: globals with static storage duration are
zero-initialized, except those with explicit initializers
(`prevBlackHoleX/Y = -1000` at line 69, inner-particle trackers `-1` at
lines 85-86).  In particular the lens tag column starts at 0, not at the
sentinel -1. -/
def startState : ModuleState :=
  { blackHoleInitialized := false
    prevBlackHoleX := -1000
    prevBlackHoleY := -1000
    previousEventHorizonRadius := 0
    diskOuterRadius := 0
    lensTag := fun _ => 0
    lensY := fun _ => 0
    trailLen := fun _ => 0
    innerX := fun _ => -1
    innerY := fun _ => -1 }

/-- Sentinel condition for the tracked erase arrays: every validity tag the
erase passes consult (lens tag column, star trail lengths, inner-particle x
column) holds its nothing-to-erase sentinel. -/
def tagsSentinel (s : ModuleState) : Prop :=
  (∀ i, s.lensTag i = -1) ∧ (∀ i, s.trailLen i = 0) ∧ (∀ i, s.innerX i = -1)

instance (s : ModuleState) : Decidable (tagsSentinel s) := by
  unfold tagsSentinel; infer_instance

/-- C9 counterexample: from the reachable pristine start state (the module
exists, zero-initialized, before the first tick ever runs), calling the
teardown twice leaves the lens tag column at 0, not at the sentinel -1: the
teardown is a no-op when `blackHoleInitialized` is false, and the C++
zero-initialization of `previousLensPoints` is 0.  So the claim's
requirement that every tracked erase array holds sentinel values after each
of the two calls fails. -/
theorem C9_counterexample :
    ¬ (tagsSentinel (eraseBlackHole 0 startState).1 ∧
       tagsSentinel (eraseBlackHole 0 (eraseBlackHole 0 startState).1).1) := by
  intro h
  have h0 := h.1.1 ⟨0, by norm_num⟩
  simp only [eraseBlackHole, startState] at h0
  norm_num at h0

/-- C9 (amended): from any state, calling the teardown twice in a row is
idempotent: the second call returns the state of the first unchanged and
issues no display calls; and provided the module is initialized at the
first call, every tracked erase-array validity tag holds its sentinel value
after each of the two calls. -/
theorem C9_amended (bg : ℕ) (s : ModuleState) :
    (eraseBlackHole bg (eraseBlackHole bg s).1).1 = (eraseBlackHole bg s).1 ∧
      (eraseBlackHole bg (eraseBlackHole bg s).1).2 = [] ∧
      (s.blackHoleInitialized = true →
        tagsSentinel (eraseBlackHole bg s).1 ∧
          tagsSentinel (eraseBlackHole bg (eraseBlackHole bg s).1).1) := by
  by_cases hinit : s.blackHoleInitialized = true
  · simp only [eraseBlackHole, hinit, if_true]
    refine ⟨rfl, rfl, fun _ => ⟨?_, ?_⟩⟩ <;>
      exact ⟨fun i => rfl, fun i => rfl, fun i => rfl⟩
  · have hfalse : s.blackHoleInitialized = false := by
      cases hb : s.blackHoleInitialized
      · rfl
      · exact absurd hb hinit
    simp only [eraseBlackHole, hfalse, Bool.false_eq_true, if_false]
    exact ⟨trivial, trivial, fun hcontra => hcontra.elim⟩

/-- Sample initialized module state used by the C9 witness. -/
def initializedExample : ModuleState :=
  { startState with blackHoleInitialized := true }

/-- Witness for C9 (amended): the teardown applied twice to a concrete
initialized state. -/
theorem C9_amended_witness :
    ((eraseBlackHole 0 (eraseBlackHole 0 initializedExample).1).1 =
        (eraseBlackHole 0 initializedExample).1 ∧
      (eraseBlackHole 0 (eraseBlackHole 0 initializedExample).1).2 = []) ∧
      initializedExample.blackHoleInitialized = true ∧
      (tagsSentinel (eraseBlackHole 0 initializedExample).1 ∧
        tagsSentinel (eraseBlackHole 0 (eraseBlackHole 0 initializedExample).1).1) :=
  ⟨⟨(C9_amended 0 initializedExample).1, (C9_amended 0 initializedExample).2.1⟩,
    rfl, (C9_amended 0 initializedExample).2.2 rfl⟩

/-! ## Claim C10: the lensing tracker stays at sentinels
    (blackhole.h lines 120-124, 158-164, 562-599)

The gravitational-lensing draw pass (lines 562-599) is commented out in the
source, so within a tick the only code touching `previousLensPoints` is the
movement-triggered erase (lines 158-164), which reads the tag column and
re-writes -1; the first-run init block (lines 121-124) writes (-1,-1)
everywhere; and the teardown writes -1 into the tag column (line 905). -/

/-- Movement-triggered lens-erase pass of lines 158-164, guarded by
`blackHoleMovedOrResized && previousEventHorizonRadius > 0` (passed in as
the boolean `moved`): every entry with a nonnegative tag gets one
background-colored pixel write and its tag reset to -1; the [1] column is
untouched. -/
def lensEraseStep (moved : Bool) (bg : ℕ) (lens : Fin 60 → ℤ × ℤ) :
    (Fin 60 → ℤ × ℤ) × List PixelCall :=
  if moved then
    (fun i => if 0 ≤ (lens i).1 then (-1, (lens i).2) else lens i,
     (List.finRange 60).filterMap fun i =>
       if 0 ≤ (lens i).1 then some ⟨(lens i).1, (lens i).2, bg⟩ else none)
  else (lens, [])

/-- Reachable lens-tracker contents after the module has initialized: the
init block writes (-1,-1) everywhere; each subsequent tick applies (at most)
the movement-triggered erase; the teardown resets the tag column; and a
re-initialization returns to the all-sentinel state (covered by `init`). -/
inductive LensReach : (Fin 60 → ℤ × ℤ) → Prop
  | init : LensReach fun _ => (-1, -1)
  | tick : ∀ (lens : Fin 60 → ℤ × ℤ) (moved : Bool) (bg : ℕ),
      LensReach lens → LensReach (lensEraseStep moved bg lens).1
  | teardown : ∀ (lens : Fin 60 → ℤ × ℤ),
      LensReach lens → LensReach fun i => (-1, (lens i).2)

/-- Helper: on an all-sentinel lens tracker the erase pass issues no pixel
writes and changes nothing. -/
theorem lensEraseStep_sentinel {lens : Fin 60 → ℤ × ℤ}
    (hs : ∀ i, lens i = (-1, -1)) (moved : Bool) (bg : ℕ) :
    (lensEraseStep moved bg lens).2 = [] ∧ (lensEraseStep moved bg lens).1 = lens := by
  unfold lensEraseStep
  split_ifs with hm
  · constructor
    · dsimp only
      rw [List.filterMap_eq_nil_iff]
      intro i _
      rw [hs i]
      norm_num
    · funext i
      dsimp only
      rw [hs i]
      norm_num
  · exact ⟨rfl, rfl⟩

/-- C10: in every reachable lens-tracker state after initialization, every
entry of `previousLensPoints` is at the sentinel (-1, -1) at the end of each
tick, and the movement-triggered erase pass issues no pixel writes (the
lensing draw pass itself is disabled in the source, so nothing is ever
drawn, recorded or erased). -/
theorem C10_lens_invariant (lens : Fin 60 → ℤ × ℤ) (h : LensReach lens) :
    (∀ i, lens i = (-1, -1)) ∧
      ∀ (moved : Bool) (bg : ℕ), (lensEraseStep moved bg lens).2 = [] := by
  induction h with
  | init =>
    exact ⟨fun i => rfl, fun moved bg => (lensEraseStep_sentinel (fun i => rfl) moved bg).1⟩
  | tick lens moved bg hr ih =>
    have heq : (lensEraseStep moved bg lens).1 = lens := (lensEraseStep_sentinel ih.1 moved bg).2
    rw [heq]
    exact ih
  | teardown lens hr ih =>
    have hs : ∀ i, ((-1 : ℤ), (lens i).2) = ((-1 : ℤ), (-1 : ℤ)) := by
      intro i
      rw [ih.1 i]
    exact ⟨hs, fun moved bg => (lensEraseStep_sentinel hs moved bg).1⟩

/-- Witness for C10: the all-sentinel tracker written by the init block. -/
theorem C10_lens_invariant_witness :
    LensReach (fun _ => ((-1 : ℤ), (-1 : ℤ))) ∧
      ((∀ i : Fin 60, (fun _ => ((-1 : ℤ), (-1 : ℤ))) i = (-1, -1)) ∧
        ∀ (moved : Bool) (bg : ℕ),
          (lensEraseStep moved bg fun _ => ((-1 : ℤ), (-1 : ℤ))).2 = []) :=
  ⟨LensReach.init, C10_lens_invariant _ LensReach.init⟩

/-! ## Claim C3: bounds checking of per-pixel display calls

Draw sites in `drawBlackHole` all test
`x >= 0 && x < SCREEN_WIDTH && y >= 0 && y < SCREEN_HEIGHT` before calling
`tft.drawPixel`; the per-pixel erase sites test only a non-negativity
sentinel on the stored x coordinate (lines 169-171, 173-177, 190-197,
202-208) and never test the upper bounds. -/

/-- Screen-bounds predicate for a coordinate pair. -/
def inBounds (W H x y : ℤ) : Prop := 0 ≤ x ∧ x < W ∧ 0 ≤ y ∧ y < H

instance (W H x y : ℤ) : Decidable (inBounds W H x y) := by
  unfold inBounds; infer_instance

/-- Per-particle erase pass of lines 168-184: the particle's previous pixel
is erased when `prevX >= 0` (the y coordinate and the upper bounds are not
tested), and each of the first `trailLength` trail entries is erased when
its stored x coordinate is nonnegative.  `trail` carries the first
`trailLength` entries of `trailX`/`trailY`. -/
def eraseAccretionCalls (bg : ℕ) (prevX prevY : ℤ) (trail : List (ℤ × ℤ)) :
    List PixelCall :=
  (if 0 ≤ prevX then [⟨prevX, prevY, bg⟩] else []) ++
    trail.filterMap fun t => if 0 ≤ t.1 then some ⟨t.1, t.2, bg⟩ else none

/-- Falling-star trail erase pass of lines 190-197: each of the first
`trailLen[i]` tracked trail points is erased when its stored x coordinate is
nonnegative; no other bound is tested. -/
def eraseStarTrailCalls (bg : ℕ) (trail : List (ℤ × ℤ)) : List PixelCall :=
  trail.filterMap fun t => if 0 ≤ t.1 then some ⟨t.1, t.2, bg⟩ else none

/-- Inner-swirl erase of lines 202-208: one erase pixel when the stored x
coordinate is nonnegative. -/
def eraseInnerCall (bg : ℕ) (px py : ℤ) : List PixelCall :=
  if 0 ≤ px then [⟨px, py, bg⟩] else []

/-- Back-half accretion draw site (lines 466-488): full screen-bounds check,
then skip when the pixel lies inside the rounded event horizon. -/
def drawBackHalf (W H cx cy rBH x y : ℤ) : Option (ℤ × ℤ) :=
  if 0 ≤ x ∧ x < W ∧ 0 ≤ y ∧ y < H then
    if (x - cx) ^ 2 + (y - cy) ^ 2 ≤ rBH ^ 2 then none else some (x, y)
  else none

/-- Disk trail-point draw site (lines 491-501 and 738-748): skip when any
coordinate is off-screen, skip inside the rounded horizon, draw otherwise. -/
def drawDiskTrail (W H cx cy rBH tx ty : ℤ) : Option (ℤ × ℤ) :=
  if tx < 0 ∨ ty < 0 ∨ W ≤ tx ∨ H ≤ ty then none
  else if (tx - cx) ^ 2 + (ty - cy) ^ 2 ≤ rBH ^ 2 then none
  else some (tx, ty)

/-- Bounds-only draw sites: inner swirl (line 522), photon-ring highlight
(line 546), star head (line 614), front-half particle (line 702) and the
front inner trail (line 756) all guard the drawPixel with exactly the
screen-bounds test. -/
def drawIfOnScreen (W H x y : ℤ) : Option (ℤ × ℤ) :=
  if 0 ≤ x ∧ x < W ∧ 0 ≤ y ∧ y < H then some (x, y) else none

/-- Tidal-stretch leading point draw site (lines 657-669): screen bounds
plus the requirement that the point lies strictly outside the event
horizon. -/
noncomputable def drawStretchAhead (W H cx cy : ℤ) (R : ℝ) (px py : ℤ) :
    Option (ℤ × ℤ) :=
  if 0 ≤ px ∧ px < W ∧ 0 ≤ py ∧ py < H ∧
      R < Real.sqrt (((px - cx : ℤ) : ℝ) ^ 2 + ((py - cy : ℤ) : ℝ) ^ 2) then
    some (px, py)
  else none

/-- Tidal-stretch trailing point draw site (lines 671-682): screen bounds
plus free capacity in the star's 10-slot trail tracker. -/
def drawStretchBehind (W H x y : ℤ) (tlen : ℕ) : Option (ℤ × ℤ) :=
  if (0 ≤ x ∧ x < W ∧ 0 ≤ y ∧ y < H) ∧ tlen < 10 then some (x, y) else none

/-- C3 counterexample: the accretion-particle erase pass issues a pixel
write at x = 247 on a 240-wide screen.  The guard at line 169 tests only
`prevX >= 0`, and `prevX` is stored unconditionally at lines 304-305 from
the rounded particle position, which lands at 247 for a particle at angle 0
and distance 17 around a focal center at x = 230.  So the erase pass writes
a pixel whose x is at or beyond the screen's upper bound, refuting the
claim that every per-pixel call passes coordinates inside
[0, width) x [0, height). -/
theorem C3_counterexample :
    (⟨247, 120, 0⟩ : PixelCall) ∈ eraseAccretionCalls 0 247 120 [] ∧
      ¬ inBounds 240 240 247 120 := by
  constructor
  · simp [eraseAccretionCalls]
  · intro h
    have := h.2.1
    norm_num at this

/-- C3 (amended): every per-pixel DRAW call issued by the core (back and
front disk halves and their trails, inner swirl, photon-ring highlight,
consumption flash, star head, tidal stretch points) is guarded by the full
screen-bounds check and therefore passes coordinates inside
[0, W) x [0, H); the per-pixel ERASE calls are guarded only by a
non-negativity sentinel on the stored x coordinate, which is all the code
guarantees: erase coordinates can lie at or beyond the upper bounds (and
their y is not tested at all). -/
theorem C3_amended (W H : ℤ) :
    (∀ cx cy rBH x y p, drawBackHalf W H cx cy rBH x y = some p →
      inBounds W H p.1 p.2) ∧
    (∀ cx cy rBH tx ty p, drawDiskTrail W H cx cy rBH tx ty = some p →
      inBounds W H p.1 p.2) ∧
    (∀ x y p, drawIfOnScreen W H x y = some p → inBounds W H p.1 p.2) ∧
    (∀ (cx cy : ℤ) (R : ℝ) (px py : ℤ) p, drawStretchAhead W H cx cy R px py = some p →
      inBounds W H p.1 p.2) ∧
    (∀ x y tlen p, drawStretchBehind W H x y tlen = some p → inBounds W H p.1 p.2) ∧
    (∀ (cx cy : ℤ) (R : ℝ) pc, pc ∈ flashCalls W H cx cy R → inBounds W H pc.x pc.y) ∧
    (∀ bg prevX prevY trail pc, pc ∈ eraseAccretionCalls bg prevX prevY trail →
      0 ≤ pc.x) ∧
    (∀ bg trail pc, pc ∈ eraseStarTrailCalls bg trail → 0 ≤ pc.x) ∧
    (∀ bg px py pc, pc ∈ eraseInnerCall bg px py → 0 ≤ pc.x) := by
  refine ⟨?_, ?_, ?_, ?_, ?_, ?_, ?_, ?_, ?_⟩
  · intro cx cy rBH x y p hp
    unfold drawBackHalf at hp
    split_ifs at hp with h1 h2
    cases hp
    exact h1
  · intro cx cy rBH tx ty p hp
    unfold drawDiskTrail at hp
    split_ifs at hp with h1 h2
    cases hp
    push_neg at h1
    exact ⟨h1.1, h1.2.2.1, h1.2.1, h1.2.2.2⟩
  · intro x y p hp
    unfold drawIfOnScreen at hp
    split_ifs at hp with h1
    cases hp
    exact h1
  · intro cx cy R px py p hp
    unfold drawStretchAhead at hp
    split_ifs at hp with h1
    cases hp
    exact ⟨h1.1, h1.2.1, h1.2.2.1, h1.2.2.2.1⟩
  · intro x y tlen p hp
    unfold drawStretchBehind at hp
    split_ifs at hp with h1
    cases hp
    exact h1.1
  · intro cx cy R pc hpc
    unfold flashCalls at hpc
    rcases List.mem_flatMap.mp hpc with ⟨r, hr, hin⟩
    rcases List.mem_flatMap.mp hin with ⟨j, hj, hin2⟩
    rcases mem_ite_singleton.mp hin2 with ⟨hg, rfl⟩
    exact hg
  · intro bg prevX prevY trail pc hpc
    unfold eraseAccretionCalls at hpc
    rcases List.mem_append.mp hpc with hh | ht
    · rcases mem_ite_singleton.mp hh with ⟨hg, rfl⟩
      exact hg
    · rcases List.mem_filterMap.mp ht with ⟨t, _, hopt⟩
      split_ifs at hopt with h0
      cases hopt
      exact h0
  · intro bg trail pc hpc
    unfold eraseStarTrailCalls at hpc
    rcases List.mem_filterMap.mp hpc with ⟨t, _, hopt⟩
    split_ifs at hopt with h0
    cases hopt
    exact h0
  · intro bg px py pc hpc
    unfold eraseInnerCall at hpc
    rcases mem_ite_singleton.mp hpc with ⟨hg, rfl⟩
    exact hg

/-- Witness for C3 (amended): one concrete issued call per site on a
240 x 240 screen with center (120, 120) and horizon radius 14. -/
theorem C3_amended_witness :
    inBounds 240 240 130 131 ∧ inBounds 240 240 5 6 ∧ inBounds 240 240 7 8 ∧
      inBounds 240 240 200 120 ∧ inBounds 240 240 9 10 ∧
      inBounds 240 240 134 120 ∧ (0 : ℤ) ≤ 50 ∧ (0 : ℤ) ≤ 51 ∧ (0 : ℤ) ≤ 52 := by
  have h := C3_amended 240 240
  have hsa : drawStretchAhead 240 240 120 120 14 200 120 = some (200, 120) := by
    unfold drawStretchAhead
    rw [if_pos]
    refine ⟨by norm_num, by norm_num, by norm_num, by norm_num, ?_⟩
    have hv : (((200 - 120 : ℤ) : ℝ) ^ 2 + ((120 - 120 : ℤ) : ℝ) ^ 2) = 6400 := by
      push_cast; norm_num
    rw [hv, show (6400 : ℝ) = 80 ^ 2 by norm_num, Real.sqrt_sq (by norm_num)]
    norm_num
  have hpt : flashPoint 120 120 14 0 0 = (134, 120) := by
    unfold flashPoint
    have hang : ((0 : ℕ) : ℝ) * Real.pi / 4 = 0 := by norm_num
    rw [hang, Real.cos_zero, Real.sin_zero]
    have hx : ((120 : ℤ) : ℝ) + 1 * ((14 : ℝ) + ((0 : ℕ) : ℝ)) = ((134 : ℤ) : ℝ) := by
      push_cast; norm_num
    have hy : ((120 : ℤ) : ℝ) + 0 * ((14 : ℝ) + ((0 : ℕ) : ℝ)) = ((120 : ℤ) : ℝ) := by
      push_cast; norm_num
    rw [hx, hy, round_intCast, round_intCast]
  have hmem : (⟨134, 120, TFT_WHITE⟩ : PixelCall) ∈ flashCalls 240 240 120 120 14 := by
    unfold flashCalls
    refine List.mem_flatMap.mpr ⟨0, by simp [List.mem_range], ?_⟩
    refine List.mem_flatMap.mpr ⟨0, by simp [List.mem_range], ?_⟩
    rw [mem_ite_singleton, hpt]
    exact ⟨⟨by norm_num, by norm_num, by norm_num, by norm_num⟩, rfl⟩
  refine ⟨?_, ?_, ?_, ?_, ?_, ?_, ?_, ?_, ?_⟩
  · exact h.1 120 120 14 130 131 (130, 131) (by decide)
  · exact h.2.1 120 120 14 5 6 (5, 6) (by decide)
  · exact h.2.2.1 7 8 (7, 8) (by decide)
  · exact h.2.2.2.1 120 120 14 200 120 (200, 120) hsa
  · exact h.2.2.2.2.1 9 10 3 (9, 10) (by decide)
  · exact h.2.2.2.2.2.1 120 120 14 ⟨134, 120, TFT_WHITE⟩ hmem
  · exact h.2.2.2.2.2.2.1 0 50 60 [] ⟨50, 60, 0⟩ (by decide)
  · exact h.2.2.2.2.2.2.2.1 0 [(51, 61)] ⟨51, 61, 0⟩ (by decide)
  · exact h.2.2.2.2.2.2.2.2 0 52 62 ⟨52, 62, 0⟩ (by decide)

end WarpDrive
